import Mathlib

/-!
Shallow embedding of the two logic-bearing components of the
angular-coding-standard corpus:

* `CacheService` (src/unnamed/part_001, lines 575-870): an in-memory TTL
  cache with LRU eviction backed by a JavaScript `Map`.
* `AuthGuard.validateAuthState` / `AuthService` (src/guards/auth.guard.ts):
  a session guard deciding access from an `AuthState`, and the service that
  owns that state.

Timestamps are modelled as `Int` milliseconds (`Date.getTime()`).  A
JavaScript `Map` is modelled as an association list in insertion order:
`Map.set` on an existing key replaces the value in place (keeping the
position), on a fresh key appends at the end; iteration order is insertion
order, which is what makes `Array.from(map.entries()).sort(...)` (a stable
sort) deterministic.
-/

namespace AngularStd

/-! ## Cache data model (CacheItem / CacheService, part_001 lines 579-608) -/

structure CacheItem (α : Type) where
  key : String
  data : α
  timestamp : Int
  expiresAt : Int
  accessCount : Nat
  lastAccessed : Int
deriving DecidableEq, Repr

/-- The cache map plus the two config fields the modelled operations read
(`cleanupInterval` and `enablePersistence` only drive timers/storage I/O,
which are outside the claims). -/
structure CacheService (α : Type) where
  cache : List (String × CacheItem α)
  maxSize : Nat
  defaultTtl : Int
deriving DecidableEq, Repr

/-- Source config: `defaultTtl = 5*60*1000`, `maxSize = 100`. -/
def CacheService.empty (α : Type) (maxSize : Nat) (defaultTtl : Int) : CacheService α :=
  ⟨[], maxSize, defaultTtl⟩

/-! ### JS `Map` primitives on the association list -/

/-- Source `Map.get`: the entry stored under `k` (keys are unique in a JS map, so
the first match is the match). -/
def lookupKey {α : Type} (m : List (String × CacheItem α)) (k : String) : Option (CacheItem α) :=
  match m with
  | [] => none
  | p :: rest => if p.1 = k then some p.2 else lookupKey rest k

/-- Source `Map.set`: replace in place if the key exists, else append. -/
def mapSet {α : Type} (m : List (String × CacheItem α)) (k : String) (it : CacheItem α) :
    List (String × CacheItem α) :=
  if (lookupKey m k).isSome then
    m.map (fun p => if p.1 = k then (k, it) else p)
  else
    m ++ [(k, it)]

/-- Source `Map.delete`: remove the entry with key `k`. -/
def mapDelete {α : Type} (m : List (String × CacheItem α)) (k : String) :
    List (String × CacheItem α) :=
  m.filter (fun p => ¬ p.1 = k)

/-! ### The stable sort used by `enforceMaxSize`

`Array.prototype.sort` with comparator
`([, a], [, b]) => a.lastAccessed.getTime() - b.lastAccessed.getTime()`
is a stable ascending sort by `lastAccessed`.  Insertion sort placing each
element before the first strictly larger one reproduces exactly the stable
order (elements equal under the comparator keep their relative — i.e. map
insertion — order). -/

def lruInsert {α : Type} (x : String × CacheItem α) :
    List (String × CacheItem α) → List (String × CacheItem α)
  | [] => [x]
  | y :: ys => if y.2.lastAccessed < x.2.lastAccessed then y :: lruInsert x ys else x :: y :: ys

def lruSort {α : Type} : List (String × CacheItem α) → List (String × CacheItem α)
  | [] => []
  | x :: xs => lruInsert x (lruSort xs)

/-! ### Cache operations (part_001 lines 615-768) -/

/-- Source `ttl || this.config.defaultTtl`: `0` is falsy in JavaScript, so both an
absent ttl and a ttl of `0` fall back to the default. -/
def effectiveTtl (ttl : Option Int) (defaultTtl : Int) : Int :=
  match ttl with
  | none => defaultTtl
  | some t => if t = 0 then defaultTtl else t

/-- Source `enforceMaxSize` (lines 757-768): when over capacity, sort the entries
by `lastAccessed` ascending and delete the first `size - maxSize` of them. -/
def enforceMaxSize {α : Type} (m : List (String × CacheItem α)) (maxSize : Nat) :
    List (String × CacheItem α) :=
  if m.length ≤ maxSize then m
  else
    let items := lruSort m
    let itemsToRemove := items.take (m.length - maxSize)
    itemsToRemove.foldl (fun acc p => mapDelete acc p.1) m

/-- Source `set` (lines 615-633). -/
def CacheService.set {α : Type} (c : CacheService α) (key : String) (data : α)
    (ttl : Option Int) (now : Int) : CacheService α :=
  let expirationTime := effectiveTtl ttl c.defaultTtl
  let expiresAt := now + expirationTime
  let item : CacheItem α :=
    { key := key, data := data, timestamp := now, expiresAt := expiresAt
      accessCount := 0, lastAccessed := now }
  { c with cache := enforceMaxSize (mapSet c.cache key item) c.maxSize }

/-- Source `get` (lines 635-659): miss on absent key; an expired entry
(`new Date() > item.expiresAt`, strictly) is deleted and missed; a hit
bumps `accessCount`/`lastAccessed` in place and returns the data. -/
def CacheService.get {α : Type} (c : CacheService α) (key : String) (now : Int) :
    Option α × CacheService α :=
  match lookupKey c.cache key with
  | none => (none, c)
  | some item =>
    if now > item.expiresAt then
      (none, { c with cache := mapDelete c.cache key })
    else
      let updatedItem : CacheItem α :=
        { item with accessCount := item.accessCount + 1, lastAccessed := now }
      (some item.data, { c with cache := mapSet c.cache key updatedItem })

/-- Source `delete` (lines 689-696): returns whether the key was present. -/
def CacheService.delete {α : Type} (c : CacheService α) (key : String) :
    Bool × CacheService α :=
  ((lookupKey c.cache key).isSome, { c with cache := mapDelete c.cache key })

/-- Source `clear` (lines 698-702). -/
def CacheService.clear {α : Type} (c : CacheService α) : CacheService α :=
  { c with cache := [] }

/-- Source `cleanup` (lines 739-755): collect the keys of entries with
`now > expiresAt` (strictly), then delete each collected key. -/
def CacheService.cleanup {α : Type} (c : CacheService α) (now : Int) : CacheService α :=
  let keysToDelete := (c.cache.filter (fun p => now > p.2.expiresAt)).map Prod.fst
  { c with cache := keysToDelete.foldl (fun acc k => mapDelete acc k) c.cache }

/-- Source `size` (lines 709-712): runs `cleanup` first, then counts. -/
def CacheService.size {α : Type} (c : CacheService α) (now : Int) : Nat :=
  (c.cleanup now).cache.length

/-! ### Operation traces, for the capacity invariant -/

inductive CacheOp (α : Type) where
  | setOp (key : String) (data : α) (ttl : Option Int) (now : Int)
  | getOp (key : String) (now : Int)
  | deleteOp (key : String)
  | clearOp
  | cleanupOp (now : Int)

def applyOp {α : Type} (c : CacheService α) : CacheOp α → CacheService α
  | .setOp k v ttl now => c.set k v ttl now
  | .getOp k now => (c.get k now).2
  | .deleteOp k => (c.delete k).2
  | .clearOp => c.clear
  | .cleanupOp now => c.cleanup now

def runOps {α : Type} (c : CacheService α) (ops : List (CacheOp α)) : CacheService α :=
  ops.foldl applyOp c

/-- Modelled from the spec (§4.1): the entry the eviction policy should pick
— the first entry, in map insertion order, attaining the minimal
`lastAccessed`.  Kept separate from the source's `enforceMaxSize` so the two
can be compared. -/
def specEvictionCandidate {α : Type} (l : List (String × CacheItem α)) :
    Option (String × CacheItem α) :=
  match l with
  | [] => none
  | p :: rest =>
    some (rest.foldl (fun acc q => if q.2.lastAccessed < acc.2.lastAccessed then q else acc) p)

/-! ## Auth data model (src/guards/auth.guard.ts) -/

/-- Source `AuthUser` (lines 7-16).  `email`, `lastLogin`, `profile` and `settings`
are presentation data never read by the modelled operations and are
omitted. -/
structure AuthUser where
  id : Nat
  roles : List String
  permissions : List String
  isActive : Bool
deriving DecidableEq, Repr

/-- Source `AuthState` (lines 59-67).  Timestamps are `Date.getTime()`
milliseconds. -/
structure AuthState where
  isAuthenticated : Bool
  user : Option AuthUser
  token : Option String
  refreshToken : Option String
  expiresAt : Option Int
  loginTime : Option Int
  lastActivity : Option Int
deriving DecidableEq, Repr

/-- The route-data fields `validateAuthState` reads.  An absent
`requiredRoles`/`requiredPermissions` and an empty array lead to the same
pass result (an empty JS array is truthy, and `every` on it is `true`), so
both are modelled as the empty list. -/
structure AccessRequest where
  requiredRoles : List String
  requiredPermissions : List String
  requiresSecureAccess : Bool
deriving DecidableEq, Repr

/-- The denial reasons, one per `return false` branch of
`validateAuthState` (distinguished in the source by its log/notification
calls and named in spec §4.3). -/
inductive DenyReason where
  | notAuthenticated
  | accountInactive
  | tokenExpired
  | sessionInactive
  | insufficientRole
  | insufficientPermission
  | stepUpRequired
deriving DecidableEq, Repr

inductive Decision where
  | allow
  | deny (reason : DenyReason)
deriving DecidableEq, Repr

def bufferTime : Int := 5 * 60 * 1000
def maxInactiveTime : Int := 30 * 60 * 1000
def secureAccessWindow : Int := 60 * 60 * 1000

/-- Source `isTokenExpired` (lines 220-228): a null `expiresAt` counts as expired;
otherwise expired iff `now >= expiresAt - bufferTime`. -/
def isTokenExpired (expiresAt : Option Int) (now : Int) : Bool :=
  match expiresAt with
  | none => true
  | some e => now ≥ e - bufferTime

/-- Source `isSessionExpired` (lines 230-238): a null `lastActivity` is a fresh
session (not expired); otherwise expired iff
`now - lastActivity > maxInactiveTime`. -/
def isSessionExpired (lastActivity : Option Int) (now : Int) : Bool :=
  match lastActivity with
  | none => false
  | some la => now - la > maxInactiveTime

/-- Source `hasRequiredRoles` (lines 240-246). -/
def hasRequiredRoles (user : AuthUser) (requiredRoles : List String) : Bool :=
  if requiredRoles.isEmpty then true
  else requiredRoles.all (fun role => user.roles.contains role)

/-- Source `hasRequiredPermissions` (lines 248-254). -/
def hasRequiredPermissions (user : AuthUser) (requiredPermissions : List String) : Bool :=
  if requiredPermissions.isEmpty then true
  else requiredPermissions.all (fun permission => user.permissions.contains permission)

/-- Source `hasSecureAccess` (lines 256-265): needs a `loginTime` and
`now - loginTime < secureAccessWindow` (strictly). -/
def hasSecureAccess (s : AuthState) (now : Int) : Bool :=
  match s.loginTime with
  | none => false
  | some lt => now - lt < secureAccessWindow

/-- Source `validateAuthState` (lines 151-218), with each `return false` branch
mapped to its `DenyReason`. -/
def validateAuthState (s : AuthState) (r : AccessRequest) (now : Int) : Decision :=
  match s.user with
  | none => .deny .notAuthenticated
  | some u =>
    if ¬ s.isAuthenticated then .deny .notAuthenticated
    else if ¬ u.isActive then .deny .accountInactive
    else if isTokenExpired s.expiresAt now then .deny .tokenExpired
    else if isSessionExpired s.lastActivity now then .deny .sessionInactive
    else if ¬ hasRequiredRoles u r.requiredRoles then .deny .insufficientRole
    else if ¬ hasRequiredPermissions u r.requiredPermissions then .deny .insufficientPermission
    else if r.requiresSecureAccess ∧ ¬ hasSecureAccess s now then .deny .stepUpRequired
    else .allow

/-! ### Spec-side formulations of the §4.3 checks

Modelled from the spec: the seven pass conditions of §4.3, stated
independently of the source's helper functions so the guard can be compared
against them. -/

def specCheckAuthenticated (s : AuthState) : Bool :=
  s.isAuthenticated && s.user.isSome

def specCheckAccountActive (s : AuthState) : Bool :=
  match s.user with
  | some u => u.isActive
  | none => false

/-- Spec section 4.3 check 3: `now < expiresAt - tokenExpiryBuffer`. -/
def specCheckTokenFresh (s : AuthState) (now : Int) : Bool :=
  match s.expiresAt with
  | some e => now < e - bufferTime
  | none => false

/-- Spec section 4.3 check 4: if `lastActivityAt` present,
`now - lastActivityAt <= maxInactiveDuration`. -/
def specCheckSessionActive (s : AuthState) (now : Int) : Bool :=
  match s.lastActivity with
  | some la => now - la ≤ maxInactiveTime
  | none => true

def specCheckRoles (s : AuthState) (r : AccessRequest) : Bool :=
  match s.user with
  | some u => r.requiredRoles.all (fun role => u.roles.contains role)
  | none => false

def specCheckPermissions (s : AuthState) (r : AccessRequest) : Bool :=
  match s.user with
  | some u => r.requiredPermissions.all (fun p => u.permissions.contains p)
  | none => false

/-- Spec section 4.3 check 7 as the code implements it: strict
`now - establishedAt < secureAccessWindow` (amended from the spec's `<=`),
and a missing `establishedAt` fails the check. -/
def specCheckStepUp (s : AuthState) (r : AccessRequest) (now : Int) : Bool :=
  !r.requiresSecureAccess ||
    (match s.loginTime with
     | some lt => now - lt < secureAccessWindow
     | none => false)

/-- Modelled from the spec: §4.3 check 7 exactly as written,
`now - establishedAt <= secureAccessWindow` (non-strict). -/
def specCheckStepUpLe (s : AuthState) (r : AccessRequest) (now : Int) : Bool :=
  !r.requiresSecureAccess ||
    (match s.loginTime with
     | some lt => now - lt ≤ secureAccessWindow
     | none => false)

/-- All eight §4.3 checks at once (check 8 is "otherwise allow"), with
check 7 in the code's strict form. -/
def specAllChecks (s : AuthState) (r : AccessRequest) (now : Int) : Bool :=
  specCheckAuthenticated s && specCheckAccountActive s && specCheckTokenFresh s now &&
    specCheckSessionActive s now && specCheckRoles s r && specCheckPermissions s r &&
    specCheckStepUp s r now

/-! ## AuthService state and operations (auth.guard.ts lines 304-593) -/

/-- JavaScript truthiness of an optional string: `null` and `""` are
falsy. -/
def strFalsy (s : Option String) : Bool :=
  match s with
  | none => true
  | some t => t = ""

/-- The unauthenticated snapshot (lines 308-316 and 449-457). -/
def emptyAuthState : AuthState :=
  { isAuthenticated := false, user := none, token := none, refreshToken := none
    expiresAt := none, loginTime := none, lastActivity := none }

/-- The service-level state: the in-memory `BehaviorSubject` value, the
`localStorage['auth-state']` snapshot, and the two timers. -/
structure AuthServiceState where
  authState : AuthState
  storedAuth : Option AuthState
  refreshTimer : Option Int
  activityTimerActive : Bool
deriving DecidableEq, Repr

/-- Source `storeAuthState` (lines 507-519): tokens are nulled out in storage when
the snapshot is unauthenticated. -/
def sanitizedForStorage (s : AuthState) : AuthState :=
  { s with
    token := if s.isAuthenticated then s.token else none
    refreshToken := if s.isAuthenticated then s.refreshToken else none }

/-- Source `updateAuthState` (lines 502-505): push to the subject and persist. -/
def updateAuthState (svc : AuthServiceState) (s : AuthState) : AuthServiceState :=
  { svc with authState := s, storedAuth := some (sanitizedForStorage s) }

/-- Source `clearAuthState` (lines 448-461): replace with the empty snapshot
(which `updateAuthState` also writes to storage) and then remove the stored
item. -/
def clearAuthStateOp (svc : AuthServiceState) : AuthServiceState :=
  { updateAuthState svc emptyAuthState with storedAuth := none }

/-- Source `scheduleTokenRefresh` (lines 529-545): cancel any pending timer, then
schedule one only when the refresh lead time is still positive. -/
def scheduleTokenRefresh (svc : AuthServiceState) (expiresAt : Option Int) (now : Int) :
    AuthServiceState :=
  let svc1 := { svc with refreshTimer := none }
  match expiresAt with
  | none => svc1
  | some e =>
    let refreshTime := e - now - 10 * 60 * 1000
    if refreshTime > 0 then { svc1 with refreshTimer := some refreshTime } else svc1

/-- Source `clearTimers` (lines 566-583). -/
def clearTimers (svc : AuthServiceState) : AuthServiceState :=
  { svc with refreshTimer := none, activityTimerActive := false }

/-- Source `LoginResponse` (lines 83-92), reduced to the fields `login` reads. -/
structure LoginResponse where
  success : Bool
  user : AuthUser
  token : String
  refreshToken : String
  expiresAt : Int
deriving DecidableEq, Repr

/-- Source `RefreshTokenResponse` (lines 94-99). -/
structure RefreshTokenResponse where
  success : Bool
  token : String
  expiresAt : Int
deriving DecidableEq, Repr

/-- Source `login` (lines 335-371).  `resp = none` models a network error; a
response with `success = false` is also a failure.  On failure the code
throws before any state update, so the service state is unchanged. -/
def doLogin (svc : AuthServiceState) (resp : Option LoginResponse) (now : Int) :
    AuthServiceState :=
  match resp with
  | none => svc
  | some r =>
    if r.success then
      let authState : AuthState :=
        { isAuthenticated := true, user := some r.user, token := some r.token
          refreshToken := some r.refreshToken, expiresAt := some r.expiresAt
          loginTime := some now, lastActivity := some now }
      scheduleTokenRefresh (updateAuthState svc authState) (some r.expiresAt) now
    else svc

/-- Source `refreshToken` (lines 399-435).  Every failure path (falsy stored
refresh token, network error, `success = false`) runs the `catch` block:
`clearAuthState()` and rethrow. -/
def doRefreshToken (svc : AuthServiceState) (resp : Option RefreshTokenResponse) (now : Int) :
    AuthServiceState :=
  if strFalsy svc.authState.refreshToken then clearAuthStateOp svc
  else
    match resp with
    | none => clearAuthStateOp svc
    | some r =>
      if r.success then
        let newAuthState : AuthState :=
          { svc.authState with
            token := some r.token, expiresAt := some r.expiresAt, lastActivity := some now }
        scheduleTokenRefresh (updateAuthState svc newAuthState) (some r.expiresAt) now
      else clearAuthStateOp svc

/-- The failure condition of `refreshToken`: exactly when the code throws. -/
def refreshFails (svc : AuthServiceState) (resp : Option RefreshTokenResponse) : Prop :=
  strFalsy svc.authState.refreshToken = true ∨ resp = none ∨
    ∃ r, resp = some r ∧ r.success = false

/-- Source `updateLastActivity` (lines 437-446): only pushes to the subject, does
not persist. -/
def updateLastActivityOp (svc : AuthServiceState) (now : Int) : AuthServiceState :=
  if svc.authState.isAuthenticated then
    { svc with authState := { svc.authState with lastActivity := some now } }
  else svc

/-- Source `logout` (lines 373-397): the remote call's outcome (`remoteOk`) is
swallowed; the `finally` block always clears local state and timers. -/
def doLogout (svc : AuthServiceState) (_remoteOk : Bool) : AuthServiceState :=
  clearTimers (clearAuthStateOp svc)

/-- Source `isValidStoredAuth` (lines 492-500):
`isAuthenticated && user && token && expiresAt && expiresAt > now`. -/
def isValidStoredAuth (s : AuthState) (now : Int) : Bool :=
  s.isAuthenticated && s.user.isSome && !strFalsy s.token &&
    (match s.expiresAt with
     | some e => e > now
     | none => false)

/-- Source `initializeAuthState` (lines 463-490), the start-up restore of the
stored snapshot: a valid snapshot is pushed to the subject (no re-persist)
and a refresh is scheduled; an invalid one is cleared. -/
def restoreStoredAuth (svc : AuthServiceState) (now : Int) : AuthServiceState :=
  match svc.storedAuth with
  | none => svc
  | some st =>
    if isValidStoredAuth st now then
      scheduleTokenRefresh { svc with authState := st } st.expiresAt now
    else clearAuthStateOp svc

/-- Spec §3 SessionState invariant: authenticated implies principal, access
token and expiry present. -/
def AuthInvariant (s : AuthState) : Prop :=
  s.isAuthenticated = true → s.user.isSome = true ∧ s.token.isSome = true ∧
    s.expiresAt.isSome = true

/-! ## Lemmas about the map primitives -/

theorem lookupKey_mapSet_self {α : Type} (m : List (String × CacheItem α)) (k : String)
    (it : CacheItem α) : lookupKey (mapSet m k it) k = some it := by
  unfold mapSet
  split
  case isTrue h =>
    induction m with
    | nil => simp [lookupKey] at h
    | cons p rest ih =>
      by_cases hp : p.1 = k
      · simp [lookupKey, hp]
      · simp only [lookupKey, hp, if_false] at h
        simp [List.map, lookupKey, hp, ih h]
  case isFalse h =>
    induction m with
    | nil => simp [lookupKey]
    | cons p rest ih =>
      by_cases hp : p.1 = k
      · simp [lookupKey, hp] at h
      · simp only [lookupKey, hp, if_false] at h
        simp [lookupKey, hp, ih h]

theorem lookupKey_mapDelete_self {α : Type} (m : List (String × CacheItem α)) (k : String) :
    lookupKey (mapDelete m k) k = none := by
  induction m with
  | nil => rfl
  | cons p rest ih =>
    by_cases hp : p.1 = k
    · simpa [mapDelete, hp] using ih
    · simpa [mapDelete, lookupKey, hp] using ih

theorem lookupKey_eq_none_iff {α : Type} (m : List (String × CacheItem α)) (k : String) :
    lookupKey m k = none ↔ ∀ p ∈ m, p.1 ≠ k := by
  induction m with
  | nil => simp [lookupKey]
  | cons p rest ih =>
    by_cases hp : p.1 = k <;> simp [lookupKey, hp, ih]

theorem mapSet_of_lookup_none {α : Type} {m : List (String × CacheItem α)} {k : String}
    (it : CacheItem α) (h : lookupKey m k = none) : mapSet m k it = m ++ [(k, it)] := by
  unfold mapSet
  simp [h]

theorem mapSet_length_le {α : Type} (m : List (String × CacheItem α)) (k : String)
    (it : CacheItem α) : (mapSet m k it).length ≤ m.length + 1 := by
  unfold mapSet
  split <;> simp

theorem mapDelete_length_le {α : Type} (m : List (String × CacheItem α)) (k : String) :
    (mapDelete m k).length ≤ m.length :=
  List.length_filter_le _ m

theorem filter_length_lt_of_mem_false {β : Type} {l : List β} {f : β → Bool} {x : β}
    (hx : x ∈ l) (hfx : f x = false) : (l.filter f).length < l.length := by
  induction l with
  | nil => cases hx
  | cons q rest ih =>
    rcases List.mem_cons.1 hx with h | h
    · subst h
      simp only [List.filter_cons, hfx, if_false, Bool.false_eq_true]
      exact Nat.lt_succ_of_le (List.length_filter_le _ rest)
    · cases hfq : f q <;> simp only [List.filter_cons, hfq] <;> simp
      · exact Nat.lt_succ_of_le (Nat.le_of_lt (ih h))
      · exact ih h

theorem mapDelete_length_lt_of_mem {α : Type} {m : List (String × CacheItem α)}
    {p : String × CacheItem α} (hp : p ∈ m) : (mapDelete m p.1).length < m.length :=
  filter_length_lt_of_mem_false hp (by simp)

theorem lookupKey_mapDelete_of_none {α : Type} {m : List (String × CacheItem α)} {k j : String}
    (h : lookupKey m k = none) : lookupKey (mapDelete m j) k = none := by
  rw [lookupKey_eq_none_iff] at h ⊢
  intro p hp
  exact h p (List.mem_of_mem_filter hp)

theorem lookupKey_foldlDelete_of_none {α : Type} (ks : List String)
    {m : List (String × CacheItem α)} {k : String} (h : lookupKey m k = none) :
    lookupKey (ks.foldl (fun acc j => mapDelete acc j) m) k = none := by
  induction ks generalizing m with
  | nil => exact h
  | cons j rest ih => exact ih (lookupKey_mapDelete_of_none h)

theorem lookupKey_foldlDelete_of_mem {α : Type} (ks : List String)
    {m : List (String × CacheItem α)} {k : String} (h : k ∈ ks) :
    lookupKey (ks.foldl (fun acc j => mapDelete acc j) m) k = none := by
  induction ks generalizing m with
  | nil => cases h
  | cons j rest ih =>
    rcases List.mem_cons.1 h with hj | hj
    · subst hj
      exact lookupKey_foldlDelete_of_none rest (lookupKey_mapDelete_self m k)
    · exact ih hj

theorem foldlDelete_length_le {α : Type} (ks : List String)
    (m : List (String × CacheItem α)) :
    (ks.foldl (fun acc j => mapDelete acc j) m).length ≤ m.length := by
  induction ks generalizing m with
  | nil => exact Nat.le_refl _
  | cons j rest ih => exact Nat.le_trans (ih _) (mapDelete_length_le m j)

/-! ## Lemmas about the stable LRU sort -/

theorem lruInsert_length {α : Type} (x : String × CacheItem α)
    (l : List (String × CacheItem α)) : (lruInsert x l).length = l.length + 1 := by
  induction l with
  | nil => rfl
  | cons y ys ih =>
    unfold lruInsert
    split <;> simp [ih]

theorem lruSort_length {α : Type} (l : List (String × CacheItem α)) :
    (lruSort l).length = l.length := by
  induction l with
  | nil => rfl
  | cons x xs ih => simp [lruSort, lruInsert_length, ih]

theorem mem_lruInsert {α : Type} {y x : String × CacheItem α}
    {l : List (String × CacheItem α)} : y ∈ lruInsert x l ↔ y = x ∨ y ∈ l := by
  induction l with
  | nil => simp [lruInsert]
  | cons z zs ih =>
    unfold lruInsert
    split <;> (simp only [List.mem_cons, ih]; try tauto)

theorem mem_lruSort {α : Type} {y : String × CacheItem α} {l : List (String × CacheItem α)} :
    y ∈ lruSort l ↔ y ∈ l := by
  induction l with
  | nil => simp [lruSort]
  | cons x xs ih =>
    simp only [lruSort, mem_lruInsert, List.mem_cons, ih]

theorem head?_lruInsert {α : Type} (x : String × CacheItem α)
    (l : List (String × CacheItem α)) :
    (lruInsert x l).head? =
      some (match l with
            | [] => x
            | y :: _ => if y.2.lastAccessed < x.2.lastAccessed then y else x) := by
  cases l with
  | nil => rfl
  | cons y ys =>
    unfold lruInsert
    split
    case isTrue h => simp [h]
    case isFalse h => simp [h]

/-- Helper for reasoning about `specEvictionCandidate`: fold a candidate of
the tail into a head element. -/
def pickOlder {α : Type} (x : String × CacheItem α) (o : Option (String × CacheItem α)) :
    String × CacheItem α :=
  match o with
  | none => x
  | some m => if m.2.lastAccessed < x.2.lastAccessed then m else x

theorem pickOlder_none {α : Type} (x : String × CacheItem α) : pickOlder x none = x := rfl

theorem pickOlder_some {α : Type} (x m : String × CacheItem α) :
    pickOlder x (some m) = if m.2.lastAccessed < x.2.lastAccessed then m else x := rfl

theorem lmFold_eq_candidate {α : Type} (xs : List (String × CacheItem α))
    (x : String × CacheItem α) :
    xs.foldl (fun acc q => if q.2.lastAccessed < acc.2.lastAccessed then q else acc) x =
      pickOlder x (specEvictionCandidate xs) := by
  induction xs generalizing x with
  | nil => rfl
  | cons y ys ih =>
    have hy := ih y
    have hx := ih (if y.2.lastAccessed < x.2.lastAccessed then y else x)
    have hcons : specEvictionCandidate (y :: ys) =
        some (ys.foldl (fun acc q => if q.2.lastAccessed < acc.2.lastAccessed then q else acc)
          y) := rfl
    simp only [List.foldl_cons]
    rw [hx, hcons, hy, pickOlder_some]
    cases hc : specEvictionCandidate ys with
    | none => simp [pickOlder_none]
    | some m =>
      rw [pickOlder_some, pickOlder_some]
      by_cases hyx : y.2.lastAccessed < x.2.lastAccessed
      · rw [if_pos hyx]
        by_cases hmy : m.2.lastAccessed < y.2.lastAccessed
        · rw [if_pos hmy, if_pos (show m.2.lastAccessed < x.2.lastAccessed by omega)]
        · rw [if_neg hmy, if_pos hyx]
      · rw [if_neg hyx]
        by_cases hmy : m.2.lastAccessed < y.2.lastAccessed
        · rw [if_pos hmy]
        · rw [if_neg hmy, if_neg (show ¬ m.2.lastAccessed < x.2.lastAccessed by omega),
            if_neg hyx]

theorem head?_lruSort_eq_specEvictionCandidate {α : Type}
    (l : List (String × CacheItem α)) :
    (lruSort l).head? = specEvictionCandidate l := by
  induction l with
  | nil => rfl
  | cons x xs ih =>
    have h1 : lruSort (x :: xs) = lruInsert x (lruSort xs) := rfl
    have h2 : specEvictionCandidate (x :: xs) =
        some (pickOlder x (specEvictionCandidate xs)) := by
      have : specEvictionCandidate (x :: xs) =
          some (xs.foldl
            (fun acc q => if q.2.lastAccessed < acc.2.lastAccessed then q else acc) x) := rfl
      rw [this, lmFold_eq_candidate]
    rw [h1, head?_lruInsert, h2]
    cases hs : lruSort xs with
    | nil =>
      rw [hs] at ih
      simp only [List.head?_nil] at ih
      rw [← ih, pickOlder_none]
    | cons m rest =>
      rw [hs] at ih
      simp only [List.head?_cons] at ih
      rw [← ih, pickOlder_some]

theorem specEvictionCandidate_mem {α : Type} {l : List (String × CacheItem α)}
    {e : String × CacheItem α} (h : specEvictionCandidate l = some e) : e ∈ l := by
  have hh := head?_lruSort_eq_specEvictionCandidate l
  rw [h] at hh
  exact mem_lruSort.1 (List.mem_of_mem_head? hh)

theorem lmFold_min {α : Type} (l : List (String × CacheItem α))
    (x : String × CacheItem α) :
    ∀ q ∈ x :: l,
      (l.foldl (fun acc q => if q.2.lastAccessed < acc.2.lastAccessed then q else acc)
          x).2.lastAccessed ≤ q.2.lastAccessed := by
  induction l generalizing x with
  | nil => simp
  | cons y ys ih =>
    intro q hq
    simp only [List.foldl_cons]
    have hbase :
        ((ys.foldl (fun acc q => if q.2.lastAccessed < acc.2.lastAccessed then q else acc)
            (if y.2.lastAccessed < x.2.lastAccessed then y else x))).2.lastAccessed ≤
          (if y.2.lastAccessed < x.2.lastAccessed then y else x).2.lastAccessed :=
      ih _ _ (List.mem_cons_self _ _)
    rcases List.mem_cons.1 hq with h | h
    · rw [h]
      have hxx : (if y.2.lastAccessed < x.2.lastAccessed then y else x).2.lastAccessed ≤
          x.2.lastAccessed := by split <;> omega
      omega
    · rcases List.mem_cons.1 h with h2 | h2
      · rw [h2]
        have hyy : (if y.2.lastAccessed < x.2.lastAccessed then y else x).2.lastAccessed ≤
            y.2.lastAccessed := by split <;> omega
        omega
      · exact ih _ q (List.mem_cons_of_mem _ h2)

theorem specEvictionCandidate_min {α : Type} {l : List (String × CacheItem α)}
    {e : String × CacheItem α} (h : specEvictionCandidate l = some e) :
    ∀ q ∈ l, e.2.lastAccessed ≤ q.2.lastAccessed := by
  cases l with
  | nil => cases h
  | cons x xs =>
    intro q hq
    have he : e = xs.foldl
        (fun acc q => if q.2.lastAccessed < acc.2.lastAccessed then q else acc) x := by
      have : specEvictionCandidate (x :: xs) =
          some (xs.foldl
            (fun acc q => if q.2.lastAccessed < acc.2.lastAccessed then q else acc) x) := rfl
      rw [this] at h
      exact (Option.some.injEq _ _ ▸ h).symm
    rw [he]
    exact lmFold_min xs x q hq

theorem specEvictionCandidate_append_last {α : Type} (l : List (String × CacheItem α))
    (x : String × CacheItem α) (e : String × CacheItem α)
    (he : specEvictionCandidate l = some e)
    (hle : e.2.lastAccessed ≤ x.2.lastAccessed) :
    specEvictionCandidate (l ++ [x]) = some e := by
  cases l with
  | nil => cases he
  | cons p rest =>
    have hf : specEvictionCandidate (p :: rest) =
        some (rest.foldl
          (fun acc q => if q.2.lastAccessed < acc.2.lastAccessed then q else acc) p) := rfl
    rw [hf, Option.some.injEq] at he
    have hg : specEvictionCandidate ((p :: rest) ++ [x]) =
        some ((rest ++ [x]).foldl
          (fun acc q => if q.2.lastAccessed < acc.2.lastAccessed then q else acc) p) := rfl
    rw [hg, List.foldl_append, List.foldl_cons, List.foldl_nil, he, if_neg (by omega)]

/-! ## Lemmas about enforceMaxSize and the capacity invariant -/

theorem mapSet_length_of_isSome {α : Type} {m : List (String × CacheItem α)} {k : String}
    (it : CacheItem α) (h : (lookupKey m k).isSome) : (mapSet m k it).length = m.length := by
  unfold mapSet
  rw [if_pos h, List.length_map]

theorem enforceMaxSize_of_le {α : Type} {m : List (String × CacheItem α)} {maxSize : Nat}
    (h : m.length ≤ maxSize) : enforceMaxSize m maxSize = m := by
  unfold enforceMaxSize
  rw [if_pos h]

theorem enforceMaxSize_eq_delete_candidate {α : Type} {m : List (String × CacheItem α)}
    {maxSize : Nat} {e : String × CacheItem α} (hlen : m.length = maxSize + 1)
    (he : specEvictionCandidate m = some e) :
    enforceMaxSize m maxSize = mapDelete m e.1 := by
  unfold enforceMaxSize
  rw [if_neg (by omega)]
  have h1 : m.length - maxSize = 1 := by omega
  rw [h1]
  cases hs : lruSort m with
  | nil =>
    have := lruSort_length m
    rw [hs] at this
    simp at this
    omega
  | cons a rest =>
    have hh := head?_lruSort_eq_specEvictionCandidate m
    rw [hs, he] at hh
    simp only [List.head?_cons, Option.some.injEq] at hh
    simp only [List.take_succ_cons, List.take_zero, List.foldl_cons, List.foldl_nil, hh]

theorem specEvictionCandidate_cons {α : Type} (p : String × CacheItem α)
    (rest : List (String × CacheItem α)) :
    specEvictionCandidate (p :: rest) =
      some (rest.foldl
        (fun acc q => if q.2.lastAccessed < acc.2.lastAccessed then q else acc) p) := rfl

theorem enforceMaxSize_length_le {α : Type} {m : List (String × CacheItem α)} {maxSize : Nat}
    (h : m.length ≤ maxSize + 1) : (enforceMaxSize m maxSize).length ≤ maxSize := by
  by_cases hle : m.length ≤ maxSize
  · rw [enforceMaxSize_of_le hle]
    exact hle
  · have hlen : m.length = maxSize + 1 := by omega
    cases hm : m with
    | nil =>
      rw [hm] at hlen
      simp at hlen
    | cons p rest =>
      have hcand : specEvictionCandidate m = some (rest.foldl
          (fun acc q => if q.2.lastAccessed < acc.2.lastAccessed then q else acc) p) := by
        rw [hm, specEvictionCandidate_cons]
      set e := rest.foldl
        (fun acc q => if q.2.lastAccessed < acc.2.lastAccessed then q else acc) p with hedef
      rw [← hm, enforceMaxSize_eq_delete_candidate hlen hcand]
      have hmem : e ∈ m := specEvictionCandidate_mem hcand
      have := mapDelete_length_lt_of_mem hmem
      omega

theorem applyOp_maxSize {α : Type} (c : CacheService α) (op : CacheOp α) :
    (applyOp c op).maxSize = c.maxSize := by
  cases op with
  | setOp k v ttl now => rfl
  | getOp k now =>
    show (c.get k now).2.maxSize = c.maxSize
    unfold CacheService.get
    cases lookupKey c.cache k with
    | none => rfl
    | some item =>
      simp only
      split <;> rfl
  | deleteOp k => rfl
  | clearOp => rfl
  | cleanupOp now => rfl

theorem applyOp_length_le {α : Type} {c : CacheService α} (op : CacheOp α)
    (h : c.cache.length ≤ c.maxSize) : (applyOp c op).cache.length ≤ c.maxSize := by
  cases op with
  | setOp k v ttl now =>
    show (enforceMaxSize (mapSet c.cache k _) c.maxSize).length ≤ c.maxSize
    exact enforceMaxSize_length_le (Nat.le_trans (mapSet_length_le _ _ _)
      (Nat.succ_le_succ h))
  | getOp k now =>
    show (c.get k now).2.cache.length ≤ c.maxSize
    unfold CacheService.get
    cases hl : lookupKey c.cache k with
    | none => exact h
    | some item =>
      simp only
      split
      · exact Nat.le_trans (mapDelete_length_le _ _) h
      · have : (lookupKey c.cache k).isSome := by rw [hl]; rfl
        simpa [mapSet_length_of_isSome _ this] using h
  | deleteOp k => exact Nat.le_trans (mapDelete_length_le _ _) h
  | clearOp => exact Nat.zero_le _
  | cleanupOp now => exact Nat.le_trans (foldlDelete_length_le _ _) h

theorem runOps_length_le {α : Type} (ops : List (CacheOp α)) (c : CacheService α)
    (h : c.cache.length ≤ c.maxSize) :
    (runOps c ops).cache.length ≤ (runOps c ops).maxSize ∧
      (runOps c ops).maxSize = c.maxSize := by
  induction ops generalizing c with
  | nil => exact ⟨h, rfl⟩
  | cons op rest ih =>
    have hr : runOps c (op :: rest) = runOps (applyOp c op) rest := rfl
    have h1 : (applyOp c op).cache.length ≤ (applyOp c op).maxSize := by
      rw [applyOp_maxSize]
      exact applyOp_length_le op h
    have h2 := ih (applyOp c op) h1
    rw [hr]
    exact ⟨h2.1, by rw [h2.2, applyOp_maxSize]⟩

/-! ## Behavioural lemmas for set / get / cleanup -/

theorem set_cache_no_evict {α : Type} (c : CacheService α) (k : String) (v : α)
    (ttl : Option Int) (now : Int) (h : c.cache.length < c.maxSize) :
    (c.set k v ttl now).cache =
      mapSet c.cache k
        { key := k, data := v, timestamp := now,
          expiresAt := now + effectiveTtl ttl c.defaultTtl, accessCount := 0,
          lastAccessed := now } := by
  show enforceMaxSize (mapSet c.cache k _) c.maxSize = _
  exact enforceMaxSize_of_le (Nat.le_trans (mapSet_length_le _ _ _) h)

theorem get_of_lookup_none {α : Type} {c : CacheService α} {k : String} (now : Int)
    (h : lookupKey c.cache k = none) : c.get k now = (none, c) := by
  unfold CacheService.get
  simp only [h]

theorem get_of_lookup_expired {α : Type} {c : CacheService α} {k : String}
    {item : CacheItem α} {now : Int} (h : lookupKey c.cache k = some item)
    (hexp : now > item.expiresAt) :
    c.get k now = (none, { c with cache := mapDelete c.cache k }) := by
  unfold CacheService.get
  simp only [h, hexp, if_true]

theorem get_of_lookup_live {α : Type} {c : CacheService α} {k : String}
    {item : CacheItem α} {now : Int} (h : lookupKey c.cache k = some item)
    (hlive : ¬ now > item.expiresAt) :
    c.get k now = (some item.data,
      { c with cache := mapSet c.cache k { item with accessCount := item.accessCount + 1, lastAccessed := now } }) := by
  unfold CacheService.get
  simp only [h, hlive, if_false]

theorem cleanup_cache_eq {α : Type} (c : CacheService α) (now : Int) :
    (c.cleanup now).cache =
      ((c.cache.filter (fun p => now > p.2.expiresAt)).map Prod.fst).foldl
        (fun acc k => mapDelete acc k) c.cache := rfl

theorem cleanup_removes_expired {α : Type} (c : CacheService α) (now : Int)
    {p : String × CacheItem α} (hp : p ∈ c.cache) (hexp : p.2.expiresAt < now) :
    lookupKey (c.cleanup now).cache p.1 = none := by
  rw [cleanup_cache_eq]
  apply lookupKey_foldlDelete_of_mem
  exact List.mem_map_of_mem _ (List.mem_filter.2 ⟨hp, by simpa using hexp⟩)

theorem cleanup_preserves_none {α : Type} (c : CacheService α) (now : Int) {k : String}
    (h : lookupKey c.cache k = none) : lookupKey (c.cleanup now).cache k = none := by
  rw [cleanup_cache_eq]
  exact lookupKey_foldlDelete_of_none _ h

theorem cleanup_length_le {α : Type} (c : CacheService α) (now : Int) :
    (c.cleanup now).cache.length ≤ c.cache.length := by
  rw [cleanup_cache_eq]
  exact foldlDelete_length_le _ _

/-! ## Claim C2 — ttl <= 0 -/

/-- C2 counterexample: the claim says that for every `ttl <= 0` the inserted
entry is never returnable.  But `set`'s `ttl || defaultTtl` treats `ttl = 0`
as absent (0 is falsy in JavaScript), so the entry gets the default ttl of
5 minutes and an immediate `get` returns the value. -/
theorem c2_counterexample :
    (((CacheService.empty Nat 100 300000).set "k" 42 (some 0) 1000).get "k" 1000).1 =
      some 42 := by
  decide

/-- C2 (amended to `ttl < 0`): a strictly negative ttl inserts a physically
present entry whose `expiresAt` is already in the past, so any later `get`
misses and deletes it; `ttl = 0` instead falls back to `defaultTtl`.
Stated below capacity so that the eviction pass leaves the fresh entry in
place. -/
theorem c2_negative_ttl_immediately_expired {α : Type} (c : CacheService α) (k : String)
    (v : α) (ttl now t : Int) (httl : ttl < 0) (hnow : now ≤ t)
    (hcap : c.cache.length < c.maxSize) :
    lookupKey (c.set k v (some ttl) now).cache k =
        some { key := k, data := v, timestamp := now, expiresAt := now + ttl,
               accessCount := 0, lastAccessed := now } ∧
    ((c.set k v (some ttl) now).get k t).1 = none ∧
    lookupKey ((c.set k v (some ttl) now).get k t).2.cache k = none := by
  have heff : effectiveTtl (some ttl) c.defaultTtl = ttl := by
    simp only [effectiveTtl]
    rw [if_neg (by omega)]
  have hset := set_cache_no_evict c k v (some ttl) now hcap
  rw [heff] at hset
  have hlook : lookupKey (c.set k v (some ttl) now).cache k =
      some { key := k, data := v, timestamp := now, expiresAt := now + ttl,
             accessCount := 0, lastAccessed := now } := by
    rw [hset]
    exact lookupKey_mapSet_self _ _ _
  have hexp : t > now + ttl := by omega
  have hget := get_of_lookup_expired hlook hexp
  refine ⟨hlook, ?_, ?_⟩
  · rw [hget]
  · rw [hget]
    exact lookupKey_mapDelete_self _ _

/-- C2 witness: the amended theorem applied at `ttl = -5`. -/
theorem c2_witness :
    lookupKey ((CacheService.empty Nat 100 300000).set "a" 5 (some (-5)) 10).cache "a" =
        some { key := "a", data := 5, timestamp := 10, expiresAt := 5,
               accessCount := 0, lastAccessed := 10 } ∧
    (((CacheService.empty Nat 100 300000).set "a" 5 (some (-5)) 10).get "a" 12).1 = none ∧
    lookupKey (((CacheService.empty Nat 100 300000).set "a" 5 (some (-5)) 10).get
        "a" 12).2.cache "a" = none :=
  c2_negative_ttl_immediately_expired (CacheService.empty Nat 100 300000) "a" 5 (-5) 10 12
    (by decide) (by decide) (by decide)

/-! ## Claim C3 — expiry boundary -/

/-- C3 counterexample: the claim says `now >= expiresAt` makes `get` return
absent and `cleanup` remove the entry (`expiresAt <= now`).  Both
comparisons in the source are strict (`new Date() > item.expiresAt`), so at
`now = expiresAt` the entry is still served and survives `cleanup`. -/
theorem c3_counterexample :
    ((((CacheService.empty Nat 100 300000).set "k" 7 (some 5) 0)).get "k" 5).1 = some 7 ∧
    (lookupKey ((((CacheService.empty Nat 100 300000).set "k" 7 (some 5) 0)).cleanup
        5).cache "k").isSome = true := by
  decide

/-- C3 (amended to the strict comparison `now > expiresAt`): a strictly
expired entry is missed and deleted by `get` (and stays gone through the
`cleanup` pass that `size()` performs), and `cleanup` removes every entry
with `expiresAt < now`. -/
theorem c3_strictly_expired_entries_removed :
    (∀ (α : Type) (c : CacheService α) (k : String) (item : CacheItem α) (now : Int),
      lookupKey c.cache k = some item → item.expiresAt < now →
        ((c.get k now).1 = none ∧
         lookupKey (c.get k now).2.cache k = none ∧
         ∀ t, lookupKey ((c.get k now).2.cleanup t).cache k = none)) ∧
    (∀ (α : Type) (c : CacheService α) (p : String × CacheItem α) (now : Int),
      p ∈ c.cache → p.2.expiresAt < now →
        lookupKey (c.cleanup now).cache p.1 = none) := by
  constructor
  · intro α c k item now hlook hexp
    have hget := get_of_lookup_expired hlook hexp
    refine ⟨by rw [hget], ?_, ?_⟩
    · rw [hget]
      exact lookupKey_mapDelete_self _ _
    · intro t
      rw [hget]
      exact cleanup_preserves_none _ t (lookupKey_mapDelete_self _ _)
  · intro α c p now hp hexp
    exact cleanup_removes_expired c now hp hexp

/-- C3 witness: the amended theorem applied to an entry with
`expiresAt = 5` read at `now = 10`. -/
theorem c3_witness :
    ((((CacheService.empty Nat 100 300000).set "k" 7 (some 5) 0)).get "k" 10).1 = none ∧
    lookupKey ((((CacheService.empty Nat 100 300000).set "k" 7 (some 5) 0)).get
        "k" 10).2.cache "k" = none ∧
    ∀ t, lookupKey (((((CacheService.empty Nat 100 300000).set "k" 7 (some 5)
        0)).get "k" 10).2.cleanup t).cache "k" = none :=
  c3_strictly_expired_entries_removed.1 Nat
    ((CacheService.empty Nat 100 300000).set "k" 7 (some 5) 0) "k"
    { key := "k", data := 7, timestamp := 0, expiresAt := 5, accessCount := 0,
      lastAccessed := 0 } 10 (by decide) (by decide)

/-! ## Claim C4 — capacity invariant -/

/-- C4: starting from the empty store, any sequence of `set`, `get`,
`delete`, `clear`, `cleanup` operations leaves at most `maxSize` entries in
the map, and `size()` (which first cleans up) is also bounded by
`maxSize`. -/
theorem c4_cache_size_bounded (α : Type) (maxSize : Nat) (defaultTtl : Int)
    (ops : List (CacheOp α)) :
    (runOps (CacheService.empty α maxSize defaultTtl) ops).cache.length ≤ maxSize ∧
    ∀ now, (runOps (CacheService.empty α maxSize defaultTtl) ops).size now ≤ maxSize := by
  have h := runOps_length_le ops (CacheService.empty α maxSize defaultTtl)
    (by simp [CacheService.empty])
  have h1 : (runOps (CacheService.empty α maxSize defaultTtl) ops).cache.length ≤ maxSize := by
    have := h.1
    rw [h.2] at this
    exact this
  refine ⟨h1, fun now => ?_⟩
  exact Nat.le_trans (cleanup_length_le _ now) h1

/-! ## Claim C6 — set/get round trip -/

/-- C6 counterexample: the round trip fails for a negative ttl — the entry
is inserted already expired, so the immediate `get` misses instead of
returning the value. -/
theorem c6_counterexample :
    (((CacheService.empty Nat 100 300000).set "k" 1 (some (-1)) 0).get "k" 0).1 ≠ some 1 ∧
    (((CacheService.empty Nat 100 300000).set "k" 1 (some (-1)) 0).get "k" 0).1 = none := by
  decide

/-- C6 (amended to non-negative ttl): with a positive default ttl, below
capacity, `set(k, v, ttl)` immediately followed by `get(k)` at the same
`now` returns `v` whenever the requested ttl is not negative (absent and
zero ttls fall back to the default). -/
theorem c6_set_get_roundtrip {α : Type} (c : CacheService α) (k : String) (v : α)
    (ttl : Option Int) (now : Int) (hcap : c.cache.length < c.maxSize)
    (hdef : 0 < c.defaultTtl) (httl : ∀ t, ttl = some t → 0 ≤ t) :
    ((c.set k v ttl now).get k now).1 = some v := by
  have heff : 0 < effectiveTtl ttl c.defaultTtl := by
    cases ttl with
    | none => simpa [effectiveTtl] using hdef
    | some t =>
      simp only [effectiveTtl]
      by_cases ht : t = 0
      · rw [if_pos ht]
        exact hdef
      · rw [if_neg ht]
        have := httl t rfl
        omega
  have hset := set_cache_no_evict c k v ttl now hcap
  have hlook : lookupKey (c.set k v ttl now).cache k =
      some { key := k, data := v, timestamp := now,
             expiresAt := now + effectiveTtl ttl c.defaultTtl, accessCount := 0,
             lastAccessed := now } := by
    rw [hset]
    exact lookupKey_mapSet_self _ _ _
  have hlive : ¬ now > now + effectiveTtl ttl c.defaultTtl := by omega
  have hget := get_of_lookup_live hlook hlive
  rw [hget]

/-- C6 witness: the amended theorem applied at `ttl = 1000`. -/
theorem c6_witness :
    (((CacheService.empty Nat 100 300000).set "k" 9 (some 1000) 3).get "k" 3).1 = some 9 :=
  c6_set_get_roundtrip (CacheService.empty Nat 100 300000) "k" 9 (some 1000) 3 (by decide)
    (by decide) (by intro t ht; cases ht; decide)

/-! ## Lemmas for the eviction claim -/

theorem mapDelete_eq_self_of_no_key {α : Type} {m : List (String × CacheItem α)} {k : String}
    (h : ∀ q ∈ m, q.1 ≠ k) : mapDelete m k = m := by
  unfold mapDelete
  apply List.filter_eq_self.2
  intro q hq
  simpa using h q hq

theorem mapDelete_cons_self {α : Type} (p : String × CacheItem α)
    (rest : List (String × CacheItem α)) : mapDelete (p :: rest) p.1 = mapDelete rest p.1 := by
  unfold mapDelete
  simp [List.filter_cons]

theorem mapDelete_cons_of_ne {α : Type} {p : String × CacheItem α} {k : String}
    (h : p.1 ≠ k) (rest : List (String × CacheItem α)) :
    mapDelete (p :: rest) k = p :: mapDelete rest k := by
  unfold mapDelete
  simp [List.filter_cons, h]

theorem mapDelete_append_singleton_of_ne {α : Type} (m : List (String × CacheItem α))
    {x : String × CacheItem α} {k : String} (h : x.1 ≠ k) :
    mapDelete (m ++ [x]) k = mapDelete m k ++ [x] := by
  unfold mapDelete
  rw [List.filter_append]
  congr 1
  simp [List.filter_cons, h]

theorem mapDelete_length_of_nodup {α : Type} {m : List (String × CacheItem α)}
    {e : String × CacheItem α} (hnodup : (m.map Prod.fst).Nodup) (he : e ∈ m) :
    (mapDelete m e.1).length = m.length - 1 := by
  induction m with
  | nil => cases he
  | cons p rest ih =>
    rw [List.map_cons, List.nodup_cons] at hnodup
    rcases List.mem_cons.1 he with rfl | h
    · have hkey : ∀ q ∈ rest, q.1 ≠ e.1 := by
        intro q hq hqe
        exact hnodup.1 (hqe ▸ List.mem_map_of_mem _ hq)
      rw [mapDelete_cons_self, mapDelete_eq_self_of_no_key hkey]
      simp
    · have hpe : p.1 ≠ e.1 := fun hh => hnodup.1 (hh ▸ List.mem_map_of_mem _ h)
      rw [mapDelete_cons_of_ne hpe]
      simp only [List.length_cons]
      rw [ih hnodup.2 h]
      have hpos : 1 ≤ rest.length := List.length_pos.2 (List.ne_nil_of_mem h)
      omega

/-! ## Claim C5 — LRU eviction -/

/-- C5 counterexample: ties in `lastAccessed` are broken by the map's
insertion order (the sort is stable), not by earliest `createdAt`.  With
`maxSize = 2`: re-setting "a" at t=2 refreshes its timestamps but keeps its
map position before "b", and reading "b" at t=2 makes the two entries tie on
`lastAccessed = 2` while "b" has the older `timestamp` (1 vs 2).  The claim
says the tie-break evicts "b" (earliest createdAt); the code evicts "a". -/
theorem c5_counterexample :
    ((lookupKey (((((CacheService.empty Nat 2 300000).set "a" 1 none 0).set "b" 2 none
        1).set "a" 10 none 2).get "b" 2).2.cache "a").map
          (fun it => (it.timestamp, it.lastAccessed)) = some (2, 2)) ∧
    ((lookupKey (((((CacheService.empty Nat 2 300000).set "a" 1 none 0).set "b" 2 none
        1).set "a" 10 none 2).get "b" 2).2.cache "b").map
          (fun it => (it.timestamp, it.lastAccessed)) = some (1, 2)) ∧
    lookupKey ((((((CacheService.empty Nat 2 300000).set "a" 1 none 0).set "b" 2 none
        1).set "a" 10 none 2).get "b" 2).2.set "c" 3 none 3).cache "a" = none ∧
    (lookupKey ((((((CacheService.empty Nat 2 300000).set "a" 1 none 0).set "b" 2 none
        1).set "a" 10 none 2).get "b" 2).2.set "c" 3 none 3).cache "b").isSome = true := by
  decide

/-- The `CacheItem` record that `set` inserts (part_001 lines 620-627),
named so that statements about eviction stay readable. -/
def newCacheItem {α : Type} (k : String) (v : α) (ttl : Option Int)
    (defaultTtl now : Int) : CacheItem α :=
  { key := k, data := v, timestamp := now, expiresAt := now + effectiveTtl ttl defaultTtl,
    accessCount := 0, lastAccessed := now }

theorem set_cache_eq {α : Type} (c : CacheService α) (k : String) (v : α)
    (ttl : Option Int) (now : Int) :
    (c.set k v ttl now).cache =
      enforceMaxSize (mapSet c.cache k (newCacheItem k v ttl c.defaultTtl now))
        c.maxSize := rfl

/-- C5 (amended): when a `set` of a fresh key hits a full store (timestamps
monotone, keys unique), exactly one entry is evicted, namely the first
entry in map insertion order among those with minimal `lastAccessed` —
`specEvictionCandidate` — with ties broken by insertion position rather
than by earliest `createdAt`; and the spec's concrete scenario (`maxSize=2`,
set "a", set "b", get "a", set "c" evicts "b") does hold. -/
theorem c5_lru_eviction_by_insertion_order :
    (∀ (α : Type) (c : CacheService α) (k : String) (v : α) (ttl : Option Int) (now : Int)
        (e : String × CacheItem α),
      (c.cache.map Prod.fst).Nodup →
      c.cache.length = c.maxSize →
      1 ≤ c.maxSize →
      lookupKey c.cache k = none →
      (∀ p ∈ c.cache, p.2.lastAccessed ≤ now) →
      specEvictionCandidate c.cache = some e →
      ((c.set k v ttl now).cache =
          mapDelete c.cache e.1 ++ [(k, newCacheItem k v ttl c.defaultTtl now)] ∧
        e ∈ c.cache ∧
        (∀ p ∈ c.cache, e.2.lastAccessed ≤ p.2.lastAccessed) ∧
        (c.set k v ttl now).cache.length = c.maxSize)) ∧
    (lookupKey (((((CacheService.empty Nat 2 300000).set "a" 1 none 0).set "b" 2 none
        1).get "a" 2).2.set "c" 3 none 3).cache "b" = none ∧
      (lookupKey (((((CacheService.empty Nat 2 300000).set "a" 1 none 0).set "b" 2 none
        1).get "a" 2).2.set "c" 3 none 3).cache "a").isSome = true ∧
      (lookupKey (((((CacheService.empty Nat 2 300000).set "a" 1 none 0).set "b" 2 none
        1).get "a" 2).2.set "c" 3 none 3).cache "c").isSome = true ∧
      (((((CacheService.empty Nat 2 300000).set "a" 1 none 0).set "b" 2 none
        1).get "a" 2).2.set "c" 3 none 3).cache.length = 2) := by
  constructor
  · intro α c k v ttl now e hnodup hlen hmax hfresh hmono hcand
    have hemem : e ∈ c.cache := specEvictionCandidate_mem hcand
    have hemin : ∀ p ∈ c.cache, e.2.lastAccessed ≤ p.2.lastAccessed :=
      specEvictionCandidate_min hcand
    have hek : e.1 ≠ k := (lookupKey_eq_none_iff _ _).1 hfresh e hemem
    have hitem : mapSet c.cache k (newCacheItem k v ttl c.defaultTtl now) =
        c.cache ++ [(k, newCacheItem k v ttl c.defaultTtl now)] :=
      mapSet_of_lookup_none _ hfresh
    have hlen1 : (c.cache ++ [(k, newCacheItem k v ttl c.defaultTtl now)]).length =
        c.maxSize + 1 := by
      simp [hlen]
    have hmonoLA : e.2.lastAccessed ≤
        ((k, newCacheItem k v ttl c.defaultTtl now) :
          String × CacheItem α).2.lastAccessed := by
      show e.2.lastAccessed ≤ now
      exact hmono e hemem
    have hcand1 : specEvictionCandidate
        (c.cache ++ [(k, newCacheItem k v ttl c.defaultTtl now)]) = some e :=
      specEvictionCandidate_append_last _ _ _ hcand hmonoLA
    have hset : (c.set k v ttl now).cache =
        mapDelete (c.cache ++ [(k, newCacheItem k v ttl c.defaultTtl now)]) e.1 := by
      rw [set_cache_eq, hitem]
      exact enforceMaxSize_eq_delete_candidate hlen1 hcand1
    have hkne : ((k, newCacheItem k v ttl c.defaultTtl now) :
        String × CacheItem α).1 ≠ e.1 := by
      show k ≠ e.1
      exact fun hh => hek hh.symm
    rw [mapDelete_append_singleton_of_ne _ hkne] at hset
    refine ⟨hset, hemem, hemin, ?_⟩
    rw [hset]
    simp only [List.length_append, List.length_cons, List.length_nil]
    rw [mapDelete_length_of_nodup hnodup hemem]
    omega
  · decide

/-- C5 witness: the amended eviction theorem applied to a one-entry store at
capacity `maxSize = 1`. -/
theorem c5_witness :
    (((CacheService.empty Nat 1 300000).set "x" 4 (some 100) 5).set "y" 9 (some 100)
        10).cache =
      mapDelete ((CacheService.empty Nat 1 300000).set "x" 4 (some 100) 5).cache "x" ++
        [("y", newCacheItem "y" 9 (some 100) 300000 10)] ∧
    ("x", newCacheItem "x" 4 (some 100) 300000 5) ∈
      ((CacheService.empty Nat 1 300000).set "x" 4 (some 100) 5).cache ∧
    (∀ p ∈ ((CacheService.empty Nat 1 300000).set "x" 4 (some 100) 5).cache,
      (("x", newCacheItem "x" 4 (some 100) 300000 5) :
        String × CacheItem Nat).2.lastAccessed ≤ p.2.lastAccessed) ∧
    (((CacheService.empty Nat 1 300000).set "x" 4 (some 100) 5).set "y" 9 (some 100)
        10).cache.length = 1 :=
  c5_lru_eviction_by_insertion_order.1 Nat
    ((CacheService.empty Nat 1 300000).set "x" 4 (some 100) 5) "y" 9 (some 100) 10
    ("x", newCacheItem "x" 4 (some 100) 300000 5)
    (by decide) (by decide) (by decide) (by decide) (by decide) (by decide)

/-! ## Bridging lemmas between the guard helpers and the spec checks -/

theorem hasRequiredRoles_eq_all (u : AuthUser) (rs : List String) :
    hasRequiredRoles u rs = rs.all (fun role => u.roles.contains role) := by
  unfold hasRequiredRoles
  cases rs <;> simp

theorem hasRequiredPermissions_eq_all (u : AuthUser) (ps : List String) :
    hasRequiredPermissions u ps = ps.all (fun p => u.permissions.contains p) := by
  unfold hasRequiredPermissions
  cases ps <;> simp

theorem specCheckTokenFresh_eq (s : AuthState) (now : Int) :
    specCheckTokenFresh s now = !isTokenExpired s.expiresAt now := by
  unfold specCheckTokenFresh isTokenExpired
  cases s.expiresAt with
  | none => rfl
  | some e =>
    rw [← decide_not, decide_eq_decide]
    omega

theorem specCheckSessionActive_eq (s : AuthState) (now : Int) :
    specCheckSessionActive s now = !isSessionExpired s.lastActivity now := by
  unfold specCheckSessionActive isSessionExpired
  cases s.lastActivity with
  | none => rfl
  | some la =>
    rw [← decide_not, decide_eq_decide]
    omega

theorem specCheckStepUp_eq (s : AuthState) (r : AccessRequest) (now : Int) :
    specCheckStepUp s r now = (!r.requiresSecureAccess || hasSecureAccess s now) := by
  unfold specCheckStepUp hasSecureAccess
  cases s.loginTime <;> rfl

/-- The guard is exactly the ordered chain of the (strict-step-up) spec
checks, short-circuiting at the first failure. -/
theorem validateAuthState_eq_chain (s : AuthState) (r : AccessRequest) (now : Int) :
    validateAuthState s r now =
      if specCheckAuthenticated s = false then Decision.deny DenyReason.notAuthenticated
      else if specCheckAccountActive s = false then Decision.deny DenyReason.accountInactive
      else if specCheckTokenFresh s now = false then Decision.deny DenyReason.tokenExpired
      else if specCheckSessionActive s now = false then
        Decision.deny DenyReason.sessionInactive
      else if specCheckRoles s r = false then Decision.deny DenyReason.insufficientRole
      else if specCheckPermissions s r = false then
        Decision.deny DenyReason.insufficientPermission
      else if specCheckStepUp s r now = false then Decision.deny DenyReason.stepUpRequired
      else Decision.allow := by
  unfold validateAuthState
  cases hu : s.user with
  | none => simp [specCheckAuthenticated, hu]
  | some u =>
    cases hauth : s.isAuthenticated <;>
      cases hact : u.isActive <;>
      cases htok : isTokenExpired s.expiresAt now <;>
      cases hses : isSessionExpired s.lastActivity now <;>
      cases hrol : hasRequiredRoles u r.requiredRoles <;>
      cases hper : hasRequiredPermissions u r.requiredPermissions <;>
      cases hsec : r.requiresSecureAccess <;>
      cases hsa : hasSecureAccess s now <;>
      simp [specCheckAuthenticated, specCheckAccountActive, specCheckRoles,
        specCheckPermissions, specCheckTokenFresh_eq, specCheckSessionActive_eq,
        specCheckStepUp_eq, hasRequiredRoles_eq_all, hasRequiredPermissions_eq_all,
        hu, hauth, hact, htok, hses, hrol, hper, hsec, hsa]

/-! ## Claim C1 — the eight ordered checks -/

/-- Modelled from the spec: all eight checks of §4.3 exactly as written,
with the non-strict step-up comparison of check 7. -/
def specAllChecksLe (s : AuthState) (r : AccessRequest) (now : Int) : Bool :=
  specCheckAuthenticated s && specCheckAccountActive s && specCheckTokenFresh s now &&
    specCheckSessionActive s now && specCheckRoles s r && specCheckPermissions s r &&
    specCheckStepUpLe s r now

def c1CexUser : AuthUser :=
  { id := 1, roles := ["user"], permissions := ["read"], isActive := true }

def c1CexState : AuthState :=
  { isAuthenticated := true, user := some c1CexUser, token := some "t",
    refreshToken := some "r", expiresAt := some 36000000, loginTime := some 100,
    lastActivity := some 3540100 }

def c1CexReq : AccessRequest :=
  { requiredRoles := ["user"], requiredPermissions := ["read"],
    requiresSecureAccess := true }

/-- C1 counterexample: a state passing all eight §4.3 checks as literally
written (step-up window compared with `<=`) on which the guard still
denies: at `now - loginTime` equal to exactly one hour the code's strict
`<` fails.  So `authorize` does not return Allow exactly when the §4.3
checks hold. -/
theorem c1_counterexample :
    specAllChecksLe c1CexState c1CexReq 3600100 = true ∧
    validateAuthState c1CexState c1CexReq 3600100 =
      Decision.deny DenyReason.stepUpRequired := by
  decide

/-- C1 (amended: check 7 read with the code's strict `<`): the guard returns
Allow iff all eight checks hold, and the checks are evaluated in the fixed
order authenticated, active, token, session, roles, permissions, step-up,
short-circuiting at the first failure: whenever a prefix of checks passes
and the next one fails, the decision is exactly that check's denial. -/
theorem c1_validate_allow_iff_ordered_checks (s : AuthState) (r : AccessRequest)
    (now : Int) :
    (validateAuthState s r now = Decision.allow ↔ specAllChecks s r now = true) ∧
    (specCheckAuthenticated s = false →
      validateAuthState s r now = Decision.deny DenyReason.notAuthenticated) ∧
    (specCheckAuthenticated s = true → specCheckAccountActive s = false →
      validateAuthState s r now = Decision.deny DenyReason.accountInactive) ∧
    (specCheckAuthenticated s = true → specCheckAccountActive s = true →
      specCheckTokenFresh s now = false →
      validateAuthState s r now = Decision.deny DenyReason.tokenExpired) ∧
    (specCheckAuthenticated s = true → specCheckAccountActive s = true →
      specCheckTokenFresh s now = true → specCheckSessionActive s now = false →
      validateAuthState s r now = Decision.deny DenyReason.sessionInactive) ∧
    (specCheckAuthenticated s = true → specCheckAccountActive s = true →
      specCheckTokenFresh s now = true → specCheckSessionActive s now = true →
      specCheckRoles s r = false →
      validateAuthState s r now = Decision.deny DenyReason.insufficientRole) ∧
    (specCheckAuthenticated s = true → specCheckAccountActive s = true →
      specCheckTokenFresh s now = true → specCheckSessionActive s now = true →
      specCheckRoles s r = true → specCheckPermissions s r = false →
      validateAuthState s r now = Decision.deny DenyReason.insufficientPermission) ∧
    (specCheckAuthenticated s = true → specCheckAccountActive s = true →
      specCheckTokenFresh s now = true → specCheckSessionActive s now = true →
      specCheckRoles s r = true → specCheckPermissions s r = true →
      specCheckStepUp s r now = false →
      validateAuthState s r now = Decision.deny DenyReason.stepUpRequired) := by
  rw [validateAuthState_eq_chain]
  cases h1 : specCheckAuthenticated s <;>
    cases h2 : specCheckAccountActive s <;>
    cases h3 : specCheckTokenFresh s now <;>
    cases h4 : specCheckSessionActive s now <;>
    cases h5 : specCheckRoles s r <;>
    cases h6 : specCheckPermissions s r <;>
    cases h7 : specCheckStepUp s r now <;>
    simp [specAllChecks, h1, h2, h3, h4, h5, h6, h7]

def c1WitState : AuthState :=
  { isAuthenticated := false, user := some c1CexUser, token := none, refreshToken := none,
    expiresAt := none, loginTime := none, lastActivity := none }

def c1WitReq : AccessRequest :=
  { requiredRoles := [], requiredPermissions := [], requiresSecureAccess := false }

/-- C1 witness: flipping the very first precondition on a concrete state
yields `Deny(NotAuthenticated)`. -/
theorem c1_witness :
    validateAuthState c1WitState c1WitReq 0 = Decision.deny DenyReason.notAuthenticated :=
  (c1_validate_allow_iff_ordered_checks _ _ 0).2.1 (by decide)

/-! ## Claim C9 — the step-up window -/

def c9User : AuthUser :=
  { id := 2, roles := [], permissions := [], isActive := true }

def c9CexState : AuthState :=
  { isAuthenticated := true, user := some c9User, token := some "t", refreshToken := none,
    expiresAt := some 40000000, loginTime := some 0, lastActivity := some 3599000 }

def c9Req : AccessRequest :=
  { requiredRoles := [], requiredPermissions := [], requiresSecureAccess := true }

/-- C9 counterexample: with the step-up flag set and every earlier check
passing, at `now - establishedAt` equal to exactly the one-hour window the
claim (`<=`) says Allow, but `hasSecureAccess` uses strict `<` and the
guard denies with StepUpRequired. -/
theorem c9_counterexample :
    ((3600000 : Int) - 0 ≤ secureAccessWindow) ∧
    validateAuthState c9CexState c9Req 3600000 =
      Decision.deny DenyReason.stepUpRequired := by
  decide

/-- C9 (amended to the strict window): with the step-up flag set and checks
1-6 passing, the guard allows exactly when a login time is present and
`now - loginTime < secureAccessWindow` (strictly), and otherwise denies
with StepUpRequired. -/
theorem c9_stepup_window_strict (s : AuthState) (r : AccessRequest) (now : Int)
    (h1 : specCheckAuthenticated s = true) (h2 : specCheckAccountActive s = true)
    (h3 : specCheckTokenFresh s now = true) (h4 : specCheckSessionActive s now = true)
    (h5 : specCheckRoles s r = true) (h6 : specCheckPermissions s r = true)
    (hsec : r.requiresSecureAccess = true) :
    (validateAuthState s r now = Decision.allow ↔
      ∃ lt, s.loginTime = some lt ∧ now - lt < secureAccessWindow) ∧
    (validateAuthState s r now ≠ Decision.allow →
      validateAuthState s r now = Decision.deny DenyReason.stepUpRequired) := by
  rw [validateAuthState_eq_chain]
  simp only [h1, h2, h3, h4, h5, h6, Bool.true_eq_false, if_false]
  unfold specCheckStepUp
  rw [hsec]
  cases hlt : s.loginTime with
  | none => simp
  | some lt =>
    by_cases hw : now - lt < secureAccessWindow
    · simp [hw]
    · simp [hw]

def c9WitState : AuthState :=
  { isAuthenticated := true, user := some c9User, token := some "t", refreshToken := none,
    expiresAt := some 40000000, loginTime := some 0, lastActivity := some 50000 }

/-- C9 witness: a login established 100 seconds ago passes the strict
window and the guard allows. -/
theorem c9_witness : validateAuthState c9WitState c9Req 100000 = Decision.allow :=
  (c9_stepup_window_strict _ _ 100000 (by decide) (by decide) (by decide) (by decide)
    (by decide) (by decide) (by decide)).1.mpr ⟨0, rfl, by decide⟩

/-! ## Lemmas about the AuthService state machine -/

theorem scheduleTokenRefresh_authState (svc : AuthServiceState) (e : Option Int)
    (now : Int) : (scheduleTokenRefresh svc e now).authState = svc.authState := by
  unfold scheduleTokenRefresh
  cases e with
  | none => rfl
  | some x =>
    simp only
    split <;> rfl

theorem scheduleTokenRefresh_storedAuth (svc : AuthServiceState) (e : Option Int)
    (now : Int) : (scheduleTokenRefresh svc e now).storedAuth = svc.storedAuth := by
  unfold scheduleTokenRefresh
  cases e with
  | none => rfl
  | some x =>
    simp only
    split <;> rfl

theorem clearAuthStateOp_authState (svc : AuthServiceState) :
    (clearAuthStateOp svc).authState = emptyAuthState := rfl

theorem clearAuthStateOp_storedAuth (svc : AuthServiceState) :
    (clearAuthStateOp svc).storedAuth = none := rfl

theorem emptyAuthState_invariant : AuthInvariant emptyAuthState := by
  intro h
  simp [emptyAuthState] at h

/-- Under every failure condition `refreshToken` runs its catch block and is
exactly `clearAuthState` on the service state. -/
theorem doRefreshToken_of_fails (svc : AuthServiceState)
    (resp : Option RefreshTokenResponse) (now : Int) (h : refreshFails svc resp) :
    doRefreshToken svc resp now = clearAuthStateOp svc := by
  unfold doRefreshToken
  rcases h with hf | hr | ⟨r, hr, hs⟩
  · rw [if_pos hf]
  · by_cases hf : strFalsy svc.authState.refreshToken = true
    · rw [if_pos hf]
    · rw [if_neg hf, hr]
  · by_cases hf : strFalsy svc.authState.refreshToken = true
    · rw [if_pos hf]
    · rw [if_neg hf, hr]
      simp [hs]

/-! ## Claim C7 — the SessionState invariant -/

/-- C7: every modelled AuthService transition — login, refreshToken,
updateLastActivity, clearAuthState and the start-up restore — preserves the
invariant that an authenticated snapshot carries a user, a token and an
expiry. -/
theorem c7_authservice_preserves_invariant :
    (∀ (svc : AuthServiceState) (resp : Option LoginResponse) (now : Int),
      AuthInvariant svc.authState → AuthInvariant (doLogin svc resp now).authState) ∧
    (∀ (svc : AuthServiceState) (resp : Option RefreshTokenResponse) (now : Int),
      AuthInvariant svc.authState →
        AuthInvariant (doRefreshToken svc resp now).authState) ∧
    (∀ (svc : AuthServiceState) (now : Int),
      AuthInvariant svc.authState →
        AuthInvariant (updateLastActivityOp svc now).authState) ∧
    (∀ svc : AuthServiceState, AuthInvariant (clearAuthStateOp svc).authState) ∧
    (∀ (svc : AuthServiceState) (now : Int),
      AuthInvariant svc.authState → AuthInvariant (restoreStoredAuth svc now).authState) := by
  refine ⟨?_, ?_, ?_, ?_, ?_⟩
  · intro svc resp now h
    unfold doLogin
    cases resp with
    | none => exact h
    | some r =>
      by_cases hs : r.success = true
      · simp only [hs, if_true, scheduleTokenRefresh_authState]
        intro _
        exact ⟨rfl, rfl, rfl⟩
      · simp only [Bool.not_eq_true] at hs
        simp only [hs, Bool.false_eq_true, if_false]
        exact h
  · intro svc resp now h
    by_cases hfail : refreshFails svc resp
    · rw [doRefreshToken_of_fails svc resp now hfail, clearAuthStateOp_authState]
      exact emptyAuthState_invariant
    · unfold refreshFails at hfail
      push_neg at hfail
      unfold doRefreshToken
      rw [if_neg (by simpa using hfail.1)]
      cases resp with
      | none => exact absurd rfl hfail.2.1
      | some r =>
        have hs : r.success = true := by
          by_contra hc
          exact absurd (Bool.not_eq_true _ ▸ hc)
            (by simpa using (hfail.2.2 r rfl))
        simp only [hs, if_true, scheduleTokenRefresh_authState]
        intro hauth
        have := h (by simpa using hauth)
        exact ⟨this.1, rfl, rfl⟩
  · intro svc now h
    unfold updateLastActivityOp
    by_cases ha : svc.authState.isAuthenticated = true
    · rw [if_pos ha]
      intro hauth
      have := h (by simpa using hauth)
      exact ⟨this.1, this.2.1, this.2.2⟩
    · rw [if_neg ha]
      exact h
  · intro svc
    rw [clearAuthStateOp_authState]
    exact emptyAuthState_invariant
  · intro svc now h
    unfold restoreStoredAuth
    cases hst : svc.storedAuth with
    | none => exact h
    | some st =>
      by_cases hv : isValidStoredAuth st now = true
      · simp only [hv, if_true, scheduleTokenRefresh_authState]
        unfold isValidStoredAuth at hv
        simp only [Bool.and_eq_true, Bool.not_eq_true'] at hv
        intro _
        refine ⟨hv.1.1.2, ?_, ?_⟩
        · cases ht : st.token with
          | none => rw [ht] at hv; simp [strFalsy] at hv
          | some t => rfl
        · cases he : st.expiresAt with
          | none => rw [he] at hv; simp at hv
          | some e => rfl
      · simp only [hv, Bool.false_eq_true, if_false]
        rw [clearAuthStateOp_authState]
        exact emptyAuthState_invariant

def c7WitUser : AuthUser :=
  { id := 3, roles := [], permissions := [], isActive := true }

def c7WitResp : LoginResponse :=
  { success := true, user := c7WitUser, token := "tok", refreshToken := "ref",
    expiresAt := 7200000 }

def c7ColdService : AuthServiceState :=
  { authState := emptyAuthState, storedAuth := none, refreshTimer := none,
    activityTimerActive := true }

/-- C7 witness: the invariant is preserved through a successful login on the
cold-start service state. -/
theorem c7_witness :
    AuthInvariant (doLogin c7ColdService (some c7WitResp) 0).authState :=
  c7_authservice_preserves_invariant.1 c7ColdService (some c7WitResp) 0
    emptyAuthState_invariant

/-! ## Claim C8 — logout always clears -/

/-- C8: whatever the prior service state and whatever the remote logout
call's outcome, after `logout` the in-memory state is the empty
unauthenticated snapshot, the refresh timer is cancelled, and durable
storage holds no snapshot at all (in particular no valid authenticated
one). -/
theorem c8_logout_clears_state_timers_storage (svc : AuthServiceState) (remoteOk : Bool) :
    (doLogout svc remoteOk).authState = emptyAuthState ∧
    (doLogout svc remoteOk).authState.isAuthenticated = false ∧
    (doLogout svc remoteOk).refreshTimer = none ∧
    (doLogout svc remoteOk).storedAuth = none :=
  ⟨rfl, rfl, rfl, rfl⟩

/-! ## Claim C10 — failed refresh clears the session -/

/-- C10: every failure path of `refreshToken` (falsy stored refresh token,
network error, or a rejected exchange) runs `clearAuthState()` before
rethrowing: the in-memory state is the empty snapshot (so
`isAuthenticated` is false) and the persisted snapshot is removed, without
any caller invoking logout. -/
theorem c10_refresh_failure_clears_session (svc : AuthServiceState)
    (resp : Option RefreshTokenResponse) (now : Int) (h : refreshFails svc resp) :
    (doRefreshToken svc resp now).authState = emptyAuthState ∧
    (doRefreshToken svc resp now).authState.isAuthenticated = false ∧
    (doRefreshToken svc resp now).storedAuth = none := by
  rw [doRefreshToken_of_fails svc resp now h]
  exact ⟨rfl, rfl, rfl⟩

def c10WitAuthState : AuthState :=
  { isAuthenticated := true, user := some c9User, token := some "t", refreshToken := none,
    expiresAt := some 7200000, loginTime := some 0, lastActivity := some 0 }

def c10WitService : AuthServiceState :=
  { authState := c10WitAuthState, storedAuth := none, refreshTimer := none,
    activityTimerActive := true }

/-- C10 witness: a refresh attempted with no stored refresh token clears the
authenticated in-memory state. -/
theorem c10_witness :
    (doRefreshToken c10WitService none 10).authState = emptyAuthState ∧
    (doRefreshToken c10WitService none 10).authState.isAuthenticated = false ∧
    (doRefreshToken c10WitService none 10).storedAuth = none :=
  c10_refresh_failure_clears_session c10WitService none 10 (Or.inl (by decide))

end AngularStd
